import Mathlib

/-!
Verification of the expense-management backend's ingestion/reconciliation
engine and renewal lifecycle scheduler.

The definitions below are a shallow embedding of the JavaScript source:

* `src/backend/src/controllers/bulkUploadController.js`
  (`excelSerialToDate`, `parseDateValue`, `normalizeEnum`, `parseBoolean`,
  `parseSharedAllocations`, the per-row body of `bulkUploadExpenses`),
* `src/backend/src/controllers/expenseController.js`
  (`validateSharedAllocations`),
* `src/backend/src/services/cronJobs.js`
  (`buildNamePattern`, `hasRenewalAction`, `runRenewalRemindersOnce`,
  `runRenewalFlagResetOnce`),
* the cron trigger router (`verifyCronAuth` and its `wrap` helper).

Modelling conventions:
* JS numbers that carry money amounts, rates and spreadsheet serials are
  modelled as `ℚ`; `NaN` outcomes of `parseFloat`/`Number` coercions are
  modelled as `Option ℚ = none` (the string-to-number coercion itself is
  abstracted to its result, since no claim concerns its internals).
* JS `Date` instants are modelled as `Int` milliseconds since the Unix
  epoch, interpreted in UTC (the deployment runs the date arithmetic of
  the cron jobs and `Date.UTC` in a fixed zone).
* JS strings are Lean `String`s; because core `String.trim`/`toLower` do
  not reduce in the kernel, the embedding implements trimming,
  lower-casing and digit parsing on the underlying character lists with
  the same ASCII semantics the source relies on.
* Mongo stores are lists of records; `findOne` is `List.find?` and
  per-document saves are pointwise list updates.
-/

/-! ## Character and string helpers (ASCII semantics of the JS source) -/

def lowerChar (c : Char) : Char :=
  if 65 ≤ c.toNat && c.toNat ≤ 90 then Char.ofNat (c.toNat + 32) else c

def isSpaceChar (c : Char) : Bool :=
  c = ' ' || c = '\t' || c = '\n' || c = '\r'

def dropLeadingSpace (l : List Char) : List Char :=
  l.dropWhile isSpaceChar

def trimChars (l : List Char) : List Char :=
  ((l.dropWhile isSpaceChar).reverse.dropWhile isSpaceChar).reverse

def mkStr (l : List Char) : String := ⟨l⟩

/-- `s.trim()` of JS, on ASCII whitespace. -/
def strTrim (s : String) : String := mkStr (trimChars s.data)

/-- `s.toLowerCase()` of JS, on ASCII letters. -/
def strLower (s : String) : String := mkStr (s.data.map lowerChar)

def digitVal (c : Char) : Option Nat :=
  if 48 ≤ c.toNat && c.toNat ≤ 57 then some (c.toNat - 48) else none

def digitsToNatAux : List Char → Nat → Option Nat
  | [], acc => some acc
  | c :: cs, acc =>
    match digitVal c with
    | some d => digitsToNatAux cs (acc * 10 + d)
    | none => none

/-- Parse a non-empty all-digit string to a natural number (the behaviour of
`parseInt(s, 10)` on the "numeric part" strings the date heuristic receives). -/
def digitStrToNat? (s : String) : Option Nat :=
  match s.data with
  | [] => none
  | l => digitsToNatAux l 0

/-- Check that `needle` starts `hay` (both as char lists). -/
def charsStartWith : List Char → List Char → Bool
  | [], _ => true
  | _ :: _, [] => false
  | n :: ns, h :: hs => n = h && charsStartWith ns hs

/-- Substring containment on char lists. -/
def charsContain (hay needle : List Char) : Bool :=
  match hay with
  | [] => charsStartWith needle []
  | _ :: rest => charsStartWith needle hay || charsContain rest needle

/-- Case-insensitive substring test: `new RegExp(escape(needle), 'i').test(hay)`. -/
def containsCI (hay needle : String) : Bool :=
  charsContain (strLower hay).data (strLower needle).data

/-- `name.split(' ')` of JS: split on every single space. -/
def splitOnSpace (s : String) : List String :=
  (s.data.splitOn ' ').map mkStr

/-! ## Civil calendar arithmetic (UTC semantics of the JS `Date` object)

`daysFromCivil`/`civilFromDays` convert between a calendar date and the day
count since 1970-01-01; together with explicit year/month normalization they
embed the overflow behaviour of `Date.UTC`, `setMonth` and `setFullYear`. -/

def daysFromCivil (y m d : Int) : Int :=
  let y' := if m ≤ 2 then y - 1 else y
  let era := y'.fdiv 400
  let yoe := y' - era * 400
  let mp := if m > 2 then m - 3 else m + 9
  let doy := (153 * mp + 2).fdiv 5 + d - 1
  let doe := yoe * 365 + yoe.fdiv 4 - yoe.fdiv 100 + doy
  era * 146097 + doe - 719468

def civilFromDays (z : Int) : Int × Int × Int :=
  let z' := z + 719468
  let era := z'.fdiv 146097
  let doe := z' - era * 146097
  let yoe := (doe - doe.fdiv 1460 + doe.fdiv 36524 - doe.fdiv 146096).fdiv 365
  let y := yoe + era * 400
  let doy := doe - (365 * yoe + yoe.fdiv 4 - yoe.fdiv 100)
  let mp := (5 * doy + 2).fdiv 153
  let d := doy - (153 * mp + 2).fdiv 5 + 1
  let m := if mp < 10 then mp + 3 else mp - 9
  (if m ≤ 2 then y + 1 else y, m, d)

def msPerDay : Int := 86400000

/-- Calendar day index (days since the Unix epoch) of a UTC timestamp. -/
def dayIndexOfMs (t : Int) : Int := t.fdiv msPerDay

/-- `Date.UTC(year, monthIndex, day)` with JS normalization of month/day
overflow (`monthIndex` is 0-based). -/
def dateUTCms (year monthIndex day : Int) : Int :=
  let y := year + monthIndex.fdiv 12
  let m := monthIndex.fmod 12 + 1
  (daysFromCivil y m 1 + (day - 1)) * msPerDay

/-- `d.setMonth(d.getMonth() + 1)` on a UTC timestamp: month index +1 with JS
normalization, keeping the day-of-month and time-of-day (day overflow rolls
into the following month exactly as in JS). -/
def addOneMonthMs (t : Int) : Int :=
  let days := t.fdiv msPerDay
  let tod := t - days * msPerDay
  let c := civilFromDays days
  dateUTCms c.1 c.2.1 c.2.2 + tod

/-- `d.setFullYear(d.getFullYear() + 1)` on a UTC timestamp (Feb 29 rolls to
Mar 1 in a non-leap target year, as in JS). -/
def addOneYearMs (t : Int) : Int :=
  let days := t.fdiv msPerDay
  let tod := t - days * msPerDay
  let c := civilFromDays days
  dateUTCms (c.1 + 1) (c.2.1 - 1) c.2.2 + tod

/-! ## Spreadsheet serial dates (`excelSerialToDate`) -/

/-- `new Date(Date.UTC(1899, 11, 30))` in milliseconds. -/
def excelEpochMs : Int := dateUTCms 1899 11 30

/-- `excelSerialToDate` from `bulkUploadController.js`: whole days from the
1899-12-30 epoch plus the fractional remainder rounded to the nearest second
(`Math.round` rounds half up, as does Mathlib's `round` on `ℚ`). -/
def excelSerialToDateMs (serial : ℚ) : Int :=
  let days : Int := ⌊serial⌋
  let milliseconds := days * msPerDay
  let fractionalDay := serial - days
  let seconds : Int := round (fractionalDay * 86400)
  excelEpochMs + milliseconds + seconds * 1000

/-- Modelled from the spec: re-encoding a date as a spreadsheet serial (the
source has no encoder; §8 speaks of a re-encoded serial). A timestamp maps to
its day-count offset from the 1899-12-30 epoch. -/
def dateMsToSerial (t : Int) : ℚ :=
  ((t - excelEpochMs : Int) : ℚ) / (msPerDay : ℚ)

/-- Calendar day denoted by a spreadsheet serial. -/
def serialCalendarDay (serial : ℚ) : Int := ⌊serial⌋

/-! ## Heuristic three-numeric-part date resolution (`parseDateValue`, step 5) -/

/-- The two-digit-year rule of `parseDateValue`: a 2-character year part is
prefixed with "20". -/
def expandTwoDigitYear (p3 : String) : String :=
  if p3.data.length = 2 then "20" ++ p3 else p3

/-- The final branch of `parseDateValue`: the value (with `/` already replaced
by `-`) split into exactly three parts `p1-p2-p3`, each numeric. Returns the
UTC timestamp or `none` when a part fails to parse. -/
def parseThreePartDate (p1 p2 p3 : String) : Option Int :=
  let p3' := expandTwoDigitYear p3
  match digitStrToNat? p1, digitStrToNat? p2, digitStrToNat? p3' with
  | some n1, some n2, some year =>
    let md : Int × Int :=
      if n1 > 12 then
        -- assume dd-mm-yyyy
        ((n2 : Int), (n1 : Int))
      else if n2 > 12 then
        -- assume mm-dd-yyyy
        ((n1 : Int), (n2 : Int))
      else
        -- default mm-dd-yyyy
        ((n1 : Int), (n2 : Int))
    some (dateUTCms (year : Int) (md.1 - 1) md.2)
  | _, _, _ => none

/-! ## Bulk upload row pipeline (`bulkUploadExpenses`)

A `RawRow` holds the values of the per-row `getField` calls of the source
(the header-alias resolution itself is not claim-relevant and is applied
before this model starts). String-to-number coercions (`parseFloat`,
`Number`) are abstracted to their results, with `none` standing for `NaN`.
Date cells are a JS `Date` instant or a spreadsheet serial number; string
cells that only the host's native `new Date(str)` parser could resolve are
outside the model (claims C6/C7 cover the deterministic parsing branches
separately). -/

inductive DateCell where
  | fromMs (t : Int)
  | fromSerial (q : ℚ)
deriving DecidableEq

structure RawAllocItem where
  businessUnit : Option String
  amount : Option ℚ
deriving DecidableEq

structure RawRow where
  cardNumber : Option String
  cardAssignedTo : Option String
  dateCell : Option DateCell
  month : Option String
  statusRaw : Option String
  particulars : Option String
  narration : Option String
  currency : Option String
  billStatus : Option String
  amountNum : Option ℚ
  typeRaw : Option String
  businessUnitRaw : Option String
  costCenterRaw : Option String
  approvedByRaw : Option String
  serviceHandler : Option String
  recurringRaw : Option String
  isSharedRaw : Option String
  sharedAllocRaw : List RawAllocItem
  providedRate : Option ℚ
  providedInINR : Option ℚ
deriving DecidableEq

structure Alloc where
  businessUnit : Option String
  amount : ℚ
deriving DecidableEq

structure ExpenseEntry where
  id : Nat
  cardNumber : String
  cardAssignedTo : String
  date : Int
  month : String
  status : String
  particulars : String
  narration : String
  currency : String
  billStatus : String
  amount : ℚ
  xeRate : ℚ
  amountInINR : ℚ
  typeOfService : String
  businessUnit : String
  costCenter : String
  approvedBy : String
  serviceHandler : String
  recurring : String
  entryStatus : String
  duplicateStatus : String
  nextRenewalDate : Option Int
  renewalNotificationSent : Bool
  autoCancellationNotificationSent : Bool
  isShared : Bool
  sharedAllocations : List Alloc
deriving DecidableEq

/-! Enum alias tables and allowed sets, transcribed from `bulkUploadExpenses`. -/

def typeMap : List (String × String) :=
  [("tool & service", "Service"), ("tools & service", "Service"),
   ("tool & services", "Service"), ("tools & services", "Service"),
   ("tool", "Tool"), ("service", "Service"),
   ("google adwords expenses", "Google Adwords Expense"),
   ("google adwords expense", "Google Adwords Expense")]

def allowedTypes : List String :=
  ["Domain", "Google", "Google Adwords Expense", "Hosting", "Proxy",
   "Server", "Service", "Tool"]

def costCenterMap : List (String × String) :=
  [("ops", "Ops"), ("oh exps", "OH Exps"), ("oh exps.", "OH Exps"),
   ("fe", "FE"), ("support", "Support"),
   ("management exps", "Management EXPS"), ("management exps.", "Management EXPS")]

def allowedCostCenters : List String :=
  ["Ops", "FE", "OH Exps", "Support", "Management EXPS"]

def businessUnitMap : List (String × String) :=
  [("dws g", "DWSG"), ("dwsg", "DWSG"), ("signature", "Signature"),
   ("collabx", "Collabx"), ("wytlabs", "Wytlabs"), ("smegoweb", "Smegoweb"),
   ("shared", "Wytlabs"), ("excel forum", "Wytlabs"),
   ("excel fourm", "Wytlabs"), ("wytlabs and dws", "Wytlabs")]

def allowedBusinessUnits : List String :=
  ["DWSG", "Signature", "Collabx", "Wytlabs", "Smegoweb"]

def statusMap : List (String × String) :=
  [("deactive-nextmonth", "Deactive"), ("deactivate-nextmonth", "Deactive")]

def allowedStatus : List String := ["Active", "Deactive", "Declined"]

def approvedByMap : List (String × String) :=
  [("vaibhav", "Vaibhav"), ("marc", "Marc"), ("dawood", "Dawood"),
   ("raghav", "Raghav"), ("tarun", "Tarun"), ("yulia", "Yulia"),
   ("sarthak", "Sarthak"), ("harshit", "Harshit"), ("suspense", "Tarun")]

def allowedApprovedBy : List String :=
  ["Vaibhav", "Marc", "Dawood", "Raghav", "Tarun", "Yulia", "Sarthak", "Harshit"]

/-- `normalizeEnum` from `bulkUploadController.js`: falsy value ↦ null, else
trim+lowercase, alias-table lookup, then case-insensitive exact match against
the allowed set, else null. -/
def normalizeEnum (value : Option String) (map : List (String × String))
    (allowedSet : List String) : Option String :=
  match value with
  | none => none
  | some v =>
    if v = "" then none
    else
      let norm := strLower (strTrim v)
      match List.lookup norm map with
      | some c => some c
      | none => allowedSet.find? (fun a => strLower a = norm)

/-- `parseBoolean` from `bulkUploadController.js` (the raw cell value as a
string; `none` stands for undefined/null). -/
def parseBoolean (value : Option String) : Bool :=
  match value with
  | none => false
  | some v =>
    let norm := strLower (strTrim v)
    if norm = "" then false
    else ["true", "yes", "y", "1", "shared", "checked"].contains norm

/-- The structured-array branch of `parseSharedAllocations`: canonicalize each
item's business unit, keep items with a resolved unit and positive amount
(JSON-string and free-text inputs reduce to this list form). -/
def parseSharedAllocations (raw : List RawAllocItem)
    (normalizeBU : Option String → Option String) : List Alloc :=
  raw.filterMap (fun item =>
    match normalizeBU item.businessUnit, item.amount with
    | some bu, some a => if a > 0 then some ⟨some bu, a⟩ else none
    | _, _ => none)

/-- The `recurringMap` of `bulkUploadExpenses` (line 438): a case-sensitive
exact-key table, consulted without trimming or lower-casing. -/
def recurringMap : List (String × String) :=
  [("Recurring_M", "Monthly"), ("Recurring_Y", "Yearly"),
   ("OneTime", "One-time"), ("One Time", "One-time"),
   ("One-time", "One-time"), ("Monthly", "Monthly"), ("Yearly", "Yearly")]

/-- Recurring resolution of `bulkUploadExpenses`: the raw cell (first truthy
of the four column spellings; absent/empty ↦ "One-time"), then
`recurringMap[recurringRaw] || 'One-time'`. -/
def recurringOf (raw : Option String) : String :=
  let r := match raw with
    | none => "One-time"
    | some s => if s = "" then "One-time" else s
  (List.lookup r recurringMap).getD "One-time"

/-- Follows the spec's words (§4.3), for comparison with `recurringOf`:
lowercase+trim the raw value, check the curated alias table, fall back to a
case-insensitive exact match against the canonical member set
{One-time, Monthly, Yearly}, and default to One-time when unresolved. -/
def specRecurringCanonicalize (raw : String) : String :=
  let norm := strLower (strTrim raw)
  let aliases : List (String × String) :=
    [("recurring_m", "Monthly"), ("recurring_y", "Yearly"),
     ("onetime", "One-time"), ("one time", "One-time"),
     ("one-time", "One-time"), ("monthly", "Monthly"), ("yearly", "Yearly")]
  match List.lookup norm aliases with
  | some c => c
  | none =>
    (["One-time", "Monthly", "Yearly"].find? (fun a => strLower a = norm)).getD
      "One-time"

def joinWithComma : List String → String
  | [] => ""
  | [s] => s
  | s :: rest => s ++ ", " ++ joinWithComma rest

def monthShortName (m : Int) : String :=
  if m = 1 then "Jan" else if m = 2 then "Feb" else if m = 3 then "Mar"
  else if m = 4 then "Apr" else if m = 5 then "May" else if m = 6 then "Jun"
  else if m = 7 then "Jul" else if m = 8 then "Aug" else if m = 9 then "Sep"
  else if m = 10 then "Oct" else if m = 11 then "Nov" else "Dec"

def natToDecimalAux : Nat → Nat → List Char
  | 0, _ => []
  | _ + 1, 0 => []
  | fuel + 1, n => natToDecimalAux fuel (n / 10) ++ [Char.ofNat (48 + n % 10)]

def natToDecimalStr (n : Nat) : String :=
  if n = 0 then "0" else mkStr (natToDecimalAux 20 n)

def intToDecimalStr (i : Int) : String :=
  if i < 0 then "-" ++ natToDecimalStr i.natAbs else natToDecimalStr i.toNat

/-- `parsedDate.toLocaleString('default', \x7b month: 'short', year: 'numeric' \x7d)`
under an English locale. -/
def monthLabelOf (t : Int) : String :=
  let c := civilFromDays (dayIndexOfMs t)
  monthShortName c.2.1 ++ " " ++ intToDecimalStr c.1

/-- The fields of a row after normalization, as they are about to be checked
against the store and persisted. -/
structure ValidRec where
  cardNumber : String
  cardAssignedTo : String
  date : Int
  month : String
  status : String
  particulars : String
  narration : String
  currency : String
  billStatus : String
  amount : ℚ
  xeRate : ℚ
  amountInINR : ℚ
  typeOfService : String
  businessUnit : String
  costCenter : String
  approvedBy : String
  serviceHandler : String
  recurring : String
  nextRenewalDate : Option Int
  isShared : Bool
  sharedAllocations : List Alloc
deriving DecidableEq

def normalizeBU (v : Option String) : Option String :=
  normalizeEnum v businessUnitMap allowedBusinessUnits

/-- A raw date cell is falsy in the `!date` missing-field check exactly when
it is absent or the numeric serial 0 (a `Date` object is always truthy). -/
def dateCellFalsy : Option DateCell → Bool
  | none => true
  | some (.fromSerial q) => q = 0
  | some (.fromMs _) => false

def resolveDateCell : Option DateCell → Option Int
  | none => none
  | some (.fromMs t) => some t
  | some (.fromSerial q) => some (excelSerialToDateMs q)

/-- `${raw || 'empty'}` used in the enum-error messages. -/
def valueOrEmpty (raw : String) : String := if raw = "" then "empty" else raw

/-- The shared-allocation block of `bulkUploadExpenses` (lines 450-482):
parse the raw allocations, derive the effective shared flag, append the
primary business unit with amount 0 when absent, reject when the allocated
total exceeds the row amount, then drop invalid/negative entries.
Returns the final `(isShared, sharedAllocations)` or the row error. -/
def resolveShared (businessUnit : Option String) (amount : Option ℚ)
    (isSharedRaw : Option String) (sharedAllocRaw : List RawAllocItem) :
    Except String (Bool × List Alloc) :=
  let sharedAllocations := parseSharedAllocations sharedAllocRaw normalizeBU
  let isShared := parseBoolean isSharedRaw || !sharedAllocations.isEmpty
  if isShared then
    let hasPrimary := sharedAllocations.any (fun item => item.businessUnit = businessUnit)
    let withPrimary :=
      if hasPrimary then sharedAllocations
      else sharedAllocations ++ [⟨businessUnit, 0⟩]
    let totalShared := (withPrimary.map (·.amount)).sum
    let exceeds : Bool := match amount with
      | some a => totalShared > a
      | none => false
    if exceeds then
      .error "Shared allocations exceed total amount"
    else
      let final := withPrimary.filter (fun item => item.businessUnit.isSome && item.amount ≥ 0)
      .ok (!final.isEmpty, final)
  else
    .ok (false, [])

/-- The normalized business unit of a raw row, as computed inside
`bulkUploadExpenses` before the shared-allocation block. -/
def rowBusinessUnit (row : RawRow) : Option String :=
  normalizeEnum (some (strTrim (row.businessUnitRaw.getD ""))) businessUnitMap
    allowedBusinessUnits

def rowTypeOfService (row : RawRow) : Option String :=
  normalizeEnum (some (row.typeRaw.getD "")) typeMap allowedTypes

def rowCostCenter (row : RawRow) : Option String :=
  normalizeEnum row.costCenterRaw costCenterMap allowedCostCenters

def rowApprovedBy (row : RawRow) : Option String :=
  normalizeEnum row.approvedByRaw approvedByMap allowedApprovedBy

/-- `(getField(row, ['Status', 'status']) || 'Active').toString().trim()`
followed by `normalizeEnum(...) || 'Active'`. -/
def rowStatus (row : RawRow) : String :=
  (normalizeEnum (some (strTrim (match row.statusRaw with
      | none => "Active"
      | some s => if s = "" then "Active" else s))) statusMap allowedStatus).getD
    "Active"

def rowCurrency (row : RawRow) : String :=
  strTrim (match row.currency with
    | none => "USD"
    | some s => if s = "" then "USD" else s)

/-- The missing-required-field check of `bulkUploadExpenses` (card number,
assignee, date, particulars, amount, business unit). -/
def rowMissingFields (row : RawRow) : List String :=
  (if (row.cardNumber.map strTrim).getD "" = "" then ["Card Number"] else []) ++
  (if (row.cardAssignedTo.map strTrim).getD "" = "" then ["Card Assigned To"] else []) ++
  (if dateCellFalsy row.dateCell then ["Date"] else []) ++
  (if row.particulars.getD "" = "" then ["Particulars"] else []) ++
  (if row.amountNum.isNone then ["Amount"] else []) ++
  (if (rowBusinessUnit row).isNone then ["Business Unit"] else [])

/-- The post-normalization enum check of `bulkUploadExpenses` (type of
service, business unit, cost center, approved by). -/
def rowEnumErrors (row : RawRow) : List String :=
  (if (rowTypeOfService row).isNone then
    ["Type of Service (value: " ++ valueOrEmpty (row.typeRaw.getD "") ++ ")"] else []) ++
  (if (rowBusinessUnit row).isNone then
    ["Business Unit (value: " ++ valueOrEmpty (strTrim (row.businessUnitRaw.getD "")) ++ ")"]
   else []) ++
  (if (rowCostCenter row).isNone then
    ["Cost Center (value: " ++ valueOrEmpty (row.costCenterRaw.getD "") ++ ")"] else []) ++
  (if (rowApprovedBy row).isNone then
    ["Approved By (value: " ++ valueOrEmpty (row.approvedByRaw.getD "") ++ ")"] else [])

/-- The fields `bulkUploadExpenses` assembles for a row that passed every
check: exchange rate (prefer the provided XE, else the collaborator), amount
in INR (prefer the provided value, else compute), next renewal date by
cadence, and the shared-allocation outcome. -/
def mkValidRec (rateFn : String → ℚ) (row : RawRow) (parsedDate : Int)
    (shared : Bool × List Alloc) : ValidRec :=
  let currency := rowCurrency row
  let rate := match row.providedRate with
    | some r => if r = 0 then rateFn currency else r
    | none => rateFn currency
  let amountVal := row.amountNum.getD 0
  let amountInINR := match row.providedInINR with
    | some p => if p = 0 then amountVal * rate else p
    | none => amountVal * rate
  let recurring := recurringOf row.recurringRaw
  let nextRenewalDate :=
    if recurring = "Monthly" then some (addOneMonthMs parsedDate)
    else if recurring = "Yearly" then some (addOneYearMs parsedDate)
    else none
  let monthRaw := strTrim (row.month.getD "")
  let narration := match row.narration with
    | none => ""
    | some s => if s = "" then "" else strTrim s
  { cardNumber := (row.cardNumber.map strTrim).getD ""
    cardAssignedTo := (row.cardAssignedTo.map strTrim).getD ""
    date := parsedDate
    month := if monthRaw = "" then monthLabelOf parsedDate else monthRaw
    status := rowStatus row
    particulars := row.particulars.getD ""
    narration := if narration = "" then row.particulars.getD "" else narration
    currency := currency
    billStatus := strTrim (row.billStatus.getD "")
    amount := amountVal
    xeRate := rate
    amountInINR := amountInINR
    typeOfService := (rowTypeOfService row).getD ""
    businessUnit := (rowBusinessUnit row).getD ""
    costCenter := (rowCostCenter row).getD ""
    approvedBy := (rowApprovedBy row).getD ""
    serviceHandler := row.serviceHandler.getD ""
    recurring := recurring
    nextRenewalDate := nextRenewalDate
    isShared := shared.1
    sharedAllocations := shared.2 }

/-- The per-row normalization and validation body of `bulkUploadExpenses`,
up to (but not including) the duplicate check, with the row's checks in
source order: shared-allocation excess, missing required fields, unresolved
enums, invalid date. `rateFn` is the external `convertToINR` collaborator. -/
def validateRow (rateFn : String → ℚ) (row : RawRow) : Except String ValidRec :=
  match resolveShared (rowBusinessUnit row) row.amountNum row.isSharedRaw
      row.sharedAllocRaw with
  | .error msg => .error msg
  | .ok shared =>
    if rowMissingFields row ≠ [] then
      .error ("Missing required fields: " ++ joinWithComma (rowMissingFields row))
    else if rowEnumErrors row ≠ [] then
      .error ("Invalid enum: " ++ joinWithComma (rowEnumErrors row))
    else
      match resolveDateCell row.dateCell with
      | none => .error "Invalid date"
      | some parsedDate => .ok (mkValidRec rateFn row parsedDate shared)

/-- The duplicate key of the `ExpenseEntry.findOne` call: exact equality on
(cardNumber, date, particulars, businessUnit, amount, currency). -/
def dupKeyMatches (v : ValidRec) (r : ExpenseEntry) : Bool :=
  r.cardNumber == v.cardNumber && r.date == v.date &&
  r.particulars == v.particulars && r.businessUnit == v.businessUnit &&
  r.amount == v.amount && r.currency == v.currency

/-- The record `ExpenseEntry.create` persists for a non-duplicate row (bulk
uploads are auto-accepted; `duplicateStatus` starts `Unique`; the notification
flags take their schema defaults). -/
def mkRecord (v : ValidRec) (id : Nat) : ExpenseEntry where
  id := id
  cardNumber := v.cardNumber
  cardAssignedTo := v.cardAssignedTo
  date := v.date
  month := v.month
  status := v.status
  particulars := v.particulars
  narration := v.narration
  currency := v.currency
  billStatus := v.billStatus
  amount := v.amount
  xeRate := v.xeRate
  amountInINR := v.amountInINR
  typeOfService := v.typeOfService
  businessUnit := v.businessUnit
  costCenter := v.costCenter
  approvedBy := v.approvedBy
  serviceHandler := v.serviceHandler
  recurring := v.recurring
  entryStatus := "Accepted"
  duplicateStatus := "Unique"
  nextRenewalDate := v.nextRenewalDate
  renewalNotificationSent := false
  autoCancellationNotificationSent := false
  isShared := v.isShared
  sharedAllocations := v.sharedAllocations

/-- `duplicateEntry.duplicateStatus = 'Merged'; save()` on the record
`findOne` returned, performed only when it is not already `Merged`. -/
def markFirstMerged (v : ValidRec) : List ExpenseEntry → List ExpenseEntry
  | [] => []
  | r :: rs =>
    if dupKeyMatches v r then
      (if r.duplicateStatus == "Merged" then r else { r with duplicateStatus := "Merged" }) :: rs
    else r :: markFirstMerged v rs

inductive RowOutcome where
  | rowFailed (msg : String)
  | rowMerged
  | rowCreated
deriving DecidableEq

/-- One iteration of the bulk-upload loop acting on the record store:
validate the row, then either merge into the first duplicate-key match or
create a new `Unique` record. -/
def processRow (rateFn : String → ℚ) (row : RawRow) (store : List ExpenseEntry) :
    RowOutcome × List ExpenseEntry :=
  match validateRow rateFn row with
  | .error msg => (.rowFailed msg, store)
  | .ok v =>
    match store.find? (fun r => dupKeyMatches v r) with
    | some _ => (.rowMerged, markFirstMerged v store)
    | none => (.rowCreated, store ++ [mkRecord v store.length])

structure BatchResults where
  total : Nat
  success : Nat
  failed : Nat
  merged : Nat
  unique : Nat
  errors : List (Nat × String)
deriving DecidableEq

/-- The row loop of `bulkUploadExpenses`: `i` is the 0-based data-row index
(error entries carry `i + 2`, the 1-based display row below the header).
Store-level exceptions (connectivity faults) are outside the model; every
row otherwise feeds exactly one counter. -/
def bulkUploadLoop (rateFn : String → ℚ) :
    Nat → List RawRow → BatchResults → List ExpenseEntry →
    BatchResults × List ExpenseEntry
  | _, [], res, store => (res, store)
  | i, row :: rest, res, store =>
    match processRow rateFn row store with
    | (.rowFailed msg, store') =>
      bulkUploadLoop rateFn (i + 1) rest
        { res with failed := res.failed + 1, errors := res.errors ++ [(i + 2, msg)] } store'
    | (.rowMerged, store') =>
      bulkUploadLoop rateFn (i + 1) rest
        { res with merged := res.merged + 1, success := res.success + 1 } store'
    | (.rowCreated, store') =>
      bulkUploadLoop rateFn (i + 1) rest
        { res with unique := res.unique + 1, success := res.success + 1 } store'

/-- `bulkUploadExpenses` batch processing over already-extracted rows. -/
def bulkUploadExpenses (rateFn : String → ℚ) (rows : List RawRow)
    (store : List ExpenseEntry) : BatchResults × List ExpenseEntry :=
  bulkUploadLoop rateFn 0 rows
    { total := rows.length, success := 0, failed := 0, merged := 0,
      unique := 0, errors := [] } store

/-- `validateSharedAllocations` from `expenseController.js` (manual entry
path): no canonicalization, `Number(amount) || 0` coercion (`none`/NaN ↦ 0),
keep positive entries, append the primary unit with 0 when absent, and throw
when the cleaned total exceeds `Number(totalAmount || 0)`. -/
def validateSharedAllocations (isShared : Bool) (sharedAllocations : List RawAllocItem)
    (totalAmount : Option ℚ) (primaryBU : Option String) :
    Except String (Bool × List Alloc) :=
  if !isShared then .ok (false, [])
  else
    let cleaned := (sharedAllocations.map (fun item =>
        Alloc.mk item.businessUnit (item.amount.getD 0))).filter
      (fun item => item.businessUnit.isSome && !(item.businessUnit == some "") && item.amount > 0)
    let hasPrimary := cleaned.any (fun item => item.businessUnit = primaryBU)
    let cleaned' := if hasPrimary then cleaned else cleaned ++ [⟨primaryBU, 0⟩]
    let total := (cleaned'.map (·.amount)).sum
    if total > totalAmount.getD 0 then
      .error "Shared allocations exceed total amount"
    else
      .ok (true, cleaned')

/-! ## Renewal lifecycle scheduler (`cronJobs.js`)

Entries are the persisted `ExpenseEntry` records above. `now` is the
job-invocation instant in UTC milliseconds; the day-window queries
(`setHours(0,0,0,0)`/`setHours(23,59,59,999)` around `today + N days`)
amount to comparing calendar-day indices. -/

structure UserRec where
  id : Nat
  name : String
  email : String
  role : String
  businessUnit : String
deriving DecidableEq

structure RenewalLogRec where
  expenseEntry : Nat
  serviceHandler : String
  action : String
  renewalDate : Int
deriving DecidableEq

/-- `buildNamePattern(handler).test(name)`: the case-insensitive regex built
from the escaped full handler name and its whitespace-split tokens matches a
user name containing any of them as a substring. -/
def namePatternMatches (handler : String) (name : String) : Bool :=
  let tokens := ((splitOnSpace handler).map strTrim).filter (· ≠ "")
  containsCI name handler || tokens.any (fun t => containsCI name t)

/-- `User.findOne(\x7b name: buildNamePattern(h), role: 'service_handler',
businessUnit \x7d)`. An empty handler name makes `buildNamePattern` return
`undefined`, which Mongoose drops from the filter, leaving only the
role/business-unit conditions. -/
def findHandler (users : List UserRec) (handler : String) (bu : String) :
    Option UserRec :=
  if handler = "" then
    users.find? (fun u => u.role == "service_handler" && u.businessUnit == bu)
  else
    users.find? (fun u =>
      namePatternMatches handler u.name && u.role == "service_handler" &&
      u.businessUnit == bu)

/-- `hasRenewalAction` from `cronJobs.js`: a `RenewalLog` row for this entry
and renewal date with a decided action. -/
def hasRenewalAction (logs : List RenewalLogRec) (entryId : Nat)
    (renewalDate : Option Int) : Bool :=
  match renewalDate with
  | none => false
  | some d =>
    logs.any (fun l =>
      l.expenseEntry == entryId && l.renewalDate == d &&
      (l.action == "Continue" || l.action == "Cancel" || l.action == "DisableByMIS"))

/-- The candidate query of `runRenewalRemindersOnce`: Active, Accepted,
reminder flag unset, renewal date on the calendar day `now + reminderDays`. -/
def reminderCandidate (now : Int) (reminderDays : Int) (e : ExpenseEntry) : Bool :=
  e.status == "Active" && e.entryStatus == "Accepted" &&
  e.renewalNotificationSent == false &&
  (match e.nextRenewalDate with
   | some d => dayIndexOfMs d == dayIndexOfMs (now + reminderDays * msPerDay)
   | none => false)

structure ReminderEvent where
  entryId : Nat
  userId : Nat
deriving DecidableEq

/-- Per-entry body of the reminder loop: skip when a renewal action is on
file for the cycle, resolve the handler, and on success send the notification
and set `renewalNotificationSent`. Returns the saved entry and the event. -/
def reminderStep (now reminderDays : Int) (users : List UserRec)
    (logs : List RenewalLogRec) (e : ExpenseEntry) :
    ExpenseEntry × Option ReminderEvent :=
  if reminderCandidate now reminderDays e then
    if hasRenewalAction logs e.id e.nextRenewalDate then (e, none)
    else
      match findHandler users e.serviceHandler e.businessUnit with
      | some u => ({ e with renewalNotificationSent := true }, some ⟨e.id, u.id⟩)
      | none => (e, none)
  else (e, none)

/-- `runRenewalRemindersOnce`: the candidate snapshot is processed
sequentially; each notified entry is saved with its flag set. Returns the
updated store and the notifications sent (email + in-app pair per entry). -/
def runRenewalRemindersOnce (now reminderDays : Int) (users : List UserRec)
    (logs : List RenewalLogRec) (entries : List ExpenseEntry) :
    List ExpenseEntry × List ReminderEvent :=
  (entries.map (fun e => (reminderStep now reminderDays users logs e).1),
   entries.filterMap (fun e => (reminderStep now reminderDays users logs e).2))

/-- Per-entry update of `runRenewalFlagResetOnce`'s bulk write: candidates
(past renewal date, reminder flag set) advance the date one cadence period
(Monthly +1 month, Yearly +1 year, otherwise unchanged) and clear the flag. -/
def flagResetStep (now : Int) (e : ExpenseEntry) : ExpenseEntry :=
  let isCandidate :=
    (match e.nextRenewalDate with | some d => d < now | none => false) &&
    e.renewalNotificationSent == true
  if isCandidate then
    let nextDate := match e.recurring, e.nextRenewalDate with
      | "Monthly", some d => some (addOneMonthMs d)
      | "Yearly", some d => some (addOneYearMs d)
      | _, nd => nd
    { e with nextRenewalDate := nextDate, renewalNotificationSent := false }
  else e

/-- `runRenewalFlagResetOnce`: one bulk state transition over the store. -/
def runRenewalFlagResetOnce (now : Int) (entries : List ExpenseEntry) :
    List ExpenseEntry :=
  entries.map (flagResetStep now)

/-! ## Cron trigger endpoints (`verifyCronAuth` / `wrap`) -/

inductive CronJobKind where
  | renewalReminders
  | rejectedCleanup
  | renewalFlagReset
  | exchangeRefresh
  | autoCancel
deriving DecidableEq

/-- `verifyCronAuth`: when `CRON_SECRET` is set (`some`), the
`x-cron-token` header must equal it; when unset, every request passes. -/
def verifyCronAuth (secret : Option String) (token : Option String) : Bool :=
  match secret with
  | some s => token == some s
  | none => true

/-- A trigger request to one of the five job routes: the guard rejects with
401, a completed run returns 204 (empty success), a failing run 500.
`jobOutcome` tells, per job, whether its single run completes. -/
def handleCronRequest (secret token : Option String)
    (jobOutcome : CronJobKind → Bool) (job : CronJobKind) : Nat :=
  if !verifyCronAuth secret token then 401
  else if jobOutcome job then 204
  else 500

/-! ## Supporting lemmas -/

theorem bulkLoop_inv (rateFn : String → ℚ) :
    ∀ (rows : List RawRow) (i : Nat) (res : BatchResults) (store : List ExpenseEntry),
    (bulkUploadLoop rateFn i rows res store).1.total = res.total ∧
    (bulkUploadLoop rateFn i rows res store).1.success +
      (bulkUploadLoop rateFn i rows res store).1.failed =
      res.success + res.failed + rows.length ∧
    (bulkUploadLoop rateFn i rows res store).1.merged +
        (bulkUploadLoop rateFn i rows res store).1.unique + res.success =
      (bulkUploadLoop rateFn i rows res store).1.success + res.merged + res.unique ∧
    (bulkUploadLoop rateFn i rows res store).1.errors.length + res.failed =
      (bulkUploadLoop rateFn i rows res store).1.failed + res.errors.length := by
  intro rows
  induction rows with
  | nil => intro i res store; simp [bulkUploadLoop]; omega
  | cons row rest ih =>
    intro i res store
    rcases h : processRow rateFn row store with ⟨o, store'⟩
    cases o with
    | rowFailed msg =>
      have := ih (i + 1)
        { res with failed := res.failed + 1, errors := res.errors ++ [(i + 2, msg)] } store'
      simp only [bulkUploadLoop, h] at *
      simp at this ⊢
      omega
    | rowMerged =>
      have := ih (i + 1)
        { res with merged := res.merged + 1, success := res.success + 1 } store'
      simp only [bulkUploadLoop, h] at *
      simp at this ⊢
      omega
    | rowCreated =>
      have := ih (i + 1)
        { res with unique := res.unique + 1, success := res.success + 1 } store'
      simp only [bulkUploadLoop, h] at *
      simp at this ⊢
      omega

/-! ## Claim theorems -/

/-- C10: for every bulk upload batch, the returned summary satisfies
`success + failed = total`, `merged + unique = success`, and the errors list
has exactly `failed` entries, regardless of which rows succeed, merge or
fail. -/
theorem c10_batch_counter_invariants (rateFn : String → ℚ) (rows : List RawRow)
    (store : List ExpenseEntry) :
    (bulkUploadExpenses rateFn rows store).1.success +
        (bulkUploadExpenses rateFn rows store).1.failed =
      (bulkUploadExpenses rateFn rows store).1.total ∧
    (bulkUploadExpenses rateFn rows store).1.merged +
        (bulkUploadExpenses rateFn rows store).1.unique =
      (bulkUploadExpenses rateFn rows store).1.success ∧
    (bulkUploadExpenses rateFn rows store).1.errors.length =
      (bulkUploadExpenses rateFn rows store).1.failed := by
  have h := bulkLoop_inv rateFn rows 0
    { total := rows.length, success := 0, failed := 0, merged := 0,
      unique := 0, errors := [] } store
  simp only [bulkUploadExpenses]
  simp at h
  omega

/-- C5 counterexample: with no shared secret configured (`CRON_SECRET`
unset), a trigger request carrying no token header is served (204), not
rejected as Unauthorized, because `verifyCronAuth` only enforces the header
when the secret is set. -/
theorem c5_counterexample :
    verifyCronAuth none none = true ∧
    handleCronRequest none none (fun _ => true) CronJobKind.renewalReminders = 204 ∧
    handleCronRequest none none (fun _ => true) CronJobKind.renewalReminders ≠ 401 := by
  decide

/-- C5 (amended): when a shared secret is configured, every request to any of
the five trigger endpoints whose token header differs from it is rejected as
Unauthorized (401); under a passing guard a completed run returns the
empty-success status 204 and a failing run the generic server-error 500. -/
theorem c5_cron_trigger_statuses (secret token : Option String) (s : String)
    (jobOutcome : CronJobKind → Bool) (job : CronJobKind) :
    (secret = some s → token ≠ some s →
      handleCronRequest secret token jobOutcome job = 401) ∧
    (verifyCronAuth secret token = true → jobOutcome job = true →
      handleCronRequest secret token jobOutcome job = 204) ∧
    (verifyCronAuth secret token = true → jobOutcome job = false →
      handleCronRequest secret token jobOutcome job = 500) := by
  refine ⟨?_, ?_, ?_⟩
  · intro hs ht
    subst hs
    simp only [handleCronRequest, verifyCronAuth]
    have : (token == some s) = false := beq_eq_false_iff_ne.mpr ht
    simp [this]
  · intro hauth hok
    simp [handleCronRequest, hauth, hok]
  · intro hauth hfail
    simp [handleCronRequest, hauth, hfail]

theorem c5_witness :
    ((some "s3" : Option String) = some "s3") ∧
    ((none : Option String) ≠ some "s3") ∧
    handleCronRequest (some "s3") none (fun _ => true) CronJobKind.autoCancel = 401 ∧
    handleCronRequest (some "s3") (some "s3") (fun _ => true) CronJobKind.autoCancel = 204 ∧
    handleCronRequest (some "s3") (some "s3") (fun _ => false) CronJobKind.autoCancel = 500 := by
  refine ⟨rfl, by decide, ?_, ?_, ?_⟩
  · exact (c5_cron_trigger_statuses (some "s3") none "s3" (fun _ => true)
      CronJobKind.autoCancel).1 rfl (by decide)
  · exact (c5_cron_trigger_statuses (some "s3") (some "s3") "s3" (fun _ => true)
      CronJobKind.autoCancel).2.1 (by decide) rfl
  · exact (c5_cron_trigger_statuses (some "s3") (some "s3") "s3" (fun _ => false)
      CronJobKind.autoCancel).2.2 (by decide) rfl

/-- C8 counterexample: the bulk-upload recurring resolution is a
case-sensitive exact lookup, so the raw value "monthly" resolves to
"One-time", while the canonicalization algorithm the claim describes
(lowercase+trim, alias table, case-insensitive member match) yields
"Monthly". -/
theorem c8_counterexample :
    recurringOf (some "monthly") = "One-time" ∧
    specRecurringCanonicalize "monthly" = "Monthly" ∧
    recurringOf (some "monthly") ≠ specRecurringCanonicalize "monthly" := by
  refine ⟨by decide, by decide, by decide⟩

/-- C8 (amended): recurring resolution looks the untrimmed raw value up in
the fixed case-sensitive table `recurringMap` (Recurring_M→Monthly,
Recurring_Y→Yearly, OneTime/One Time/One-time→One-time, Monthly→Monthly,
Yearly→Yearly); an absent or empty cell and every value outside the table's
exact keys — including case variants such as "monthly" — default to
One-time. -/
theorem c8_recurring_exact_lookup :
    (∀ p ∈ recurringMap, recurringOf (some p.1) = p.2) ∧
    recurringOf none = "One-time" ∧
    recurringOf (some "") = "One-time" ∧
    (∀ raw : String, raw ∉ recurringMap.map Prod.fst →
      recurringOf (some raw) = "One-time") := by
  refine ⟨by decide, by decide, by decide, ?_⟩
  intro raw hraw
  simp only [recurringMap, List.map_cons, List.map_nil, List.mem_cons,
    List.not_mem_nil, or_false] at hraw
  push_neg at hraw
  by_cases hempty : raw = ""
  · subst hempty; decide
  · obtain ⟨h1, h2, h3, h4, h5, h6, h7⟩ := hraw
    simp [recurringOf, hempty, recurringMap, List.lookup,
      beq_eq_false_iff_ne.mpr h1, beq_eq_false_iff_ne.mpr h2,
      beq_eq_false_iff_ne.mpr h3, beq_eq_false_iff_ne.mpr h4,
      beq_eq_false_iff_ne.mpr h5, beq_eq_false_iff_ne.mpr h6,
      beq_eq_false_iff_ne.mpr h7]

theorem c8_witness :
    ("Monthly " ∉ recurringMap.map Prod.fst) ∧
    recurringOf (some "Monthly ") = "One-time" := by
  refine ⟨by decide, ?_⟩
  exact c8_recurring_exact_lookup.2.2.2 "Monthly " (by decide)

/-- C6: a date value that (after the earlier resolution steps fail) splits
into exactly three numeric parts is read as day-month-year when the first
part exceeds 12, as month-day-year when the second part exceeds 12, and as
month-day-year by default; a 2-digit year part is prefixed with "20", and the
result is the UTC date built from the resolved (year, month, day). -/
theorem c6_three_part_date_disambiguation (p1 p2 p3 : String) (n1 n2 y : Nat)
    (h1 : digitStrToNat? p1 = some n1) (h2 : digitStrToNat? p2 = some n2)
    (h3 : digitStrToNat? (expandTwoDigitYear p3) = some y) :
    (p3.data.length = 2 → expandTwoDigitYear p3 = "20" ++ p3) ∧
    (n1 > 12 →
      parseThreePartDate p1 p2 p3 = some (dateUTCms (y : Int) ((n2 : Int) - 1) (n1 : Int))) ∧
    (n1 ≤ 12 → n2 > 12 →
      parseThreePartDate p1 p2 p3 = some (dateUTCms (y : Int) ((n1 : Int) - 1) (n2 : Int))) ∧
    (n1 ≤ 12 → n2 ≤ 12 →
      parseThreePartDate p1 p2 p3 = some (dateUTCms (y : Int) ((n1 : Int) - 1) (n2 : Int))) := by
  refine ⟨fun hlen => by simp [expandTwoDigitYear, hlen], ?_, ?_, ?_⟩
  · intro hgt
    simp [parseThreePartDate, h1, h2, h3, hgt]
  · intro hle hgt
    have : ¬n1 > 12 := by omega
    simp [parseThreePartDate, h1, h2, h3, this, hgt]
  · intro hle1 hle2
    have ha : ¬n1 > 12 := by omega
    have hb : ¬n2 > 12 := by omega
    simp [parseThreePartDate, h1, h2, h3, ha, hb]

theorem c6_witness :
    digitStrToNat? "13" = some 13 ∧ digitStrToNat? "05" = some 5 ∧
    digitStrToNat? (expandTwoDigitYear "25") = some 2025 ∧
    expandTwoDigitYear "25" = "20" ++ "25" ∧
    parseThreePartDate "13" "05" "25" = some (dateUTCms 2025 ((5 : Int) - 1) 13) ∧
    parseThreePartDate "05" "13" "25" = some (dateUTCms 2025 ((5 : Int) - 1) 13) ∧
    parseThreePartDate "03" "04" "25" = some (dateUTCms 2025 ((3 : Int) - 1) 4) := by
  have ha := c6_three_part_date_disambiguation "13" "05" "25" 13 5 2025
    (by decide) (by decide) (by decide)
  have hb := c6_three_part_date_disambiguation "05" "13" "25" 5 13 2025
    (by decide) (by decide) (by decide)
  have hc := c6_three_part_date_disambiguation "03" "04" "25" 3 4 2025
    (by decide) (by decide) (by decide)
  have e1 := ha.1 (by decide)
  have e2 := ha.2.1 (by decide)
  have e3 := hb.2.2.1 (by decide) (by decide)
  have e4 := hc.2.2.2 (by decide) (by decide)
  exact ⟨by decide, by decide, by decide, e1, e2, by simpa using e3, by simpa using e4⟩

theorem excelEpochMs_eq : excelEpochMs = -2209161600000 := by decide

/-- C7 counterexample: the serial 345599/345600 (a time 0.25 seconds before
midnight of day 0) has its fractional remainder rounded up to a full 86400
seconds, so the decoded date lands on the next calendar day and the
re-encoded serial has calendar day 1, not 0. -/
theorem c7_counterexample :
    serialCalendarDay ((345599 : ℚ) / 345600) = 0 ∧
    excelSerialToDateMs ((345599 : ℚ) / 345600) = excelEpochMs + 86400000 ∧
    serialCalendarDay (dateMsToSerial (excelSerialToDateMs ((345599 : ℚ) / 345600))) = 1 ∧
    serialCalendarDay (dateMsToSerial (excelSerialToDateMs ((345599 : ℚ) / 345600))) ≠
      serialCalendarDay ((345599 : ℚ) / 345600) := by
  have hfloor : serialCalendarDay ((345599 : ℚ) / 345600) = 0 := by
    rw [serialCalendarDay]
    norm_num [Int.floor_eq_zero_iff]
  have henc : excelSerialToDateMs ((345599 : ℚ) / 345600) = excelEpochMs + 86400000 := by
    rw [excelSerialToDateMs]
    have h0 : ⌊(345599 : ℚ) / 345600⌋ = 0 := by norm_num [Int.floor_eq_zero_iff]
    rw [h0]
    norm_num [round_eq, msPerDay]
  have hdec : serialCalendarDay (dateMsToSerial (excelSerialToDateMs ((345599 : ℚ) / 345600))) = 1 := by
    rw [henc, dateMsToSerial, serialCalendarDay]
    norm_num [msPerDay]
  exact ⟨hfloor, henc, hdec, by rw [hdec, hfloor]; decide⟩

/-- C7 (amended): decoding interprets a serial as whole days from the fixed
1899-12-30 UTC epoch plus the fractional remainder rounded to the nearest
second, and the round trip re-encoding the date as a serial preserves the
calendar day whenever the rounded remainder stays below a full day (86400
seconds); serials whose fraction rounds up to a full day — those within half
a second of midnight — advance to the next calendar day. -/
theorem c7_serial_round_trip (s : ℚ)
    (h : round ((s - ⌊s⌋) * 86400) < 86400) :
    serialCalendarDay (dateMsToSerial (excelSerialToDateMs s)) = serialCalendarDay s := by
  have hfrac : (0 : ℚ) ≤ s - ⌊s⌋ := by
    have := Int.floor_le s
    linarith
  have hsec0 : (0 : ℤ) ≤ round ((s - ⌊s⌋) * 86400) := by
    rw [round_eq]
    exact Int.le_floor.mpr (by push_cast; nlinarith)
  set sec : ℤ := round ((s - ⌊s⌋) * 86400) with hsec
  have hstep : excelSerialToDateMs s = excelEpochMs + ⌊s⌋ * msPerDay + sec * 1000 := rfl
  rw [serialCalendarDay, serialCalendarDay, dateMsToSerial, hstep]
  have hq : ((excelEpochMs + ⌊s⌋ * msPerDay + sec * 1000 - excelEpochMs : ℤ) : ℚ) / (msPerDay : ℚ) =
      (⌊s⌋ : ℚ) + (sec : ℚ) / 86400 := by
    simp only [msPerDay]
    push_cast
    ring
  rw [hq, Int.floor_int_add]
  have hzero : ⌊(sec : ℚ) / 86400⌋ = 0 := by
    rw [Int.floor_eq_zero_iff]
    constructor
    · exact div_nonneg (by exact_mod_cast hsec0) (by norm_num)
    · rw [div_lt_one (by norm_num)]
      exact_mod_cast h
  rw [hzero, add_zero]

theorem c7_witness :
    round (((45662 : ℚ) - ⌊(45662 : ℚ)⌋) * 86400) < 86400 ∧
    serialCalendarDay (dateMsToSerial (excelSerialToDateMs (45662 : ℚ))) =
      serialCalendarDay (45662 : ℚ) := by
  have hh : round (((45662 : ℚ) - ⌊(45662 : ℚ)⌋) * 86400) < 86400 := by
    norm_num [round_eq, Int.floor_intCast]
  exact ⟨hh, c7_serial_round_trip 45662 hh⟩

theorem runRenewalFlagResetOnce_length (now : Int) (entries : List ExpenseEntry) :
    (runRenewalFlagResetOnce now entries).length = entries.length := by
  simp [runRenewalFlagResetOnce]

/-- C3: one run of the rollover job, on any entry whose `nextRenewalDate` is
in the past with `renewalNotificationSent = true`, resets the flag to false
and advances the date by exactly one cadence period: +1 month for a Monthly
entry and +1 year for a Yearly entry (the JS `setMonth`/`setFullYear`
semantics embedded in `addOneMonthMs`/`addOneYearMs`). -/
theorem c3_rollover_advances_one_period (now : Int) (entries : List ExpenseEntry)
    (i : Nat) (hi : i < entries.length) (D : Int)
    (hd : (entries.get ⟨i, hi⟩).nextRenewalDate = some D)
    (hpast : D < now)
    (hflag : (entries.get ⟨i, hi⟩).renewalNotificationSent = true) :
    ((runRenewalFlagResetOnce now entries).get
        ⟨i, by rw [runRenewalFlagResetOnce_length]; exact hi⟩).renewalNotificationSent = false ∧
    ((entries.get ⟨i, hi⟩).recurring = "Monthly" →
      ((runRenewalFlagResetOnce now entries).get
          ⟨i, by rw [runRenewalFlagResetOnce_length]; exact hi⟩).nextRenewalDate =
        some (addOneMonthMs D)) ∧
    ((entries.get ⟨i, hi⟩).recurring = "Yearly" →
      ((runRenewalFlagResetOnce now entries).get
          ⟨i, by rw [runRenewalFlagResetOnce_length]; exact hi⟩).nextRenewalDate =
        some (addOneYearMs D)) := by
  have hmap : (runRenewalFlagResetOnce now entries).get
      ⟨i, by rw [runRenewalFlagResetOnce_length]; exact hi⟩ =
      flagResetStep now (entries.get ⟨i, hi⟩) := by
    simp [runRenewalFlagResetOnce]
  set e := entries.get ⟨i, hi⟩ with he
  refine ⟨?_, ?_, ?_⟩
  · rw [hmap]
    simp [flagResetStep, hd, hflag, hpast]
  · intro hrec
    rw [hmap]
    simp [flagResetStep, hd, hflag, hpast, hrec]
  · intro hrec
    rw [hmap]
    simp [flagResetStep, hd, hflag, hpast, hrec]

def c3Entry : ExpenseEntry where
  id := 1
  cardNumber := "M003"
  cardAssignedTo := "John Doe"
  date := dateUTCms 2024 11 5
  month := "Dec 2024"
  status := "Active"
  particulars := "ChatGPT"
  narration := "ChatGPT"
  currency := "USD"
  billStatus := ""
  amount := 200
  xeRate := 83
  amountInINR := 16600
  typeOfService := "Tool"
  businessUnit := "Wytlabs"
  costCenter := "Ops"
  approvedBy := "Raghav"
  serviceHandler := "Raghav"
  recurring := "Monthly"
  entryStatus := "Accepted"
  duplicateStatus := "Unique"
  nextRenewalDate := some (dateUTCms 2025 0 5)
  renewalNotificationSent := true
  autoCancellationNotificationSent := false
  isShared := false
  sharedAllocations := []

theorem c3_witness :
    ([c3Entry].get ⟨0, by decide⟩).nextRenewalDate = some (dateUTCms 2025 0 5) ∧
    dateUTCms 2025 0 5 < dateUTCms 2025 0 20 ∧
    ([c3Entry].get ⟨0, by decide⟩).renewalNotificationSent = true ∧
    ([c3Entry].get ⟨0, by decide⟩).recurring = "Monthly" ∧
    ((runRenewalFlagResetOnce (dateUTCms 2025 0 20) [c3Entry]).get
        ⟨0, by decide⟩).renewalNotificationSent = false ∧
    ((runRenewalFlagResetOnce (dateUTCms 2025 0 20) [c3Entry]).get
        ⟨0, by decide⟩).nextRenewalDate = some (addOneMonthMs (dateUTCms 2025 0 5)) ∧
    addOneMonthMs (dateUTCms 2025 0 5) = dateUTCms 2025 1 5 := by
  have h := c3_rollover_advances_one_period (dateUTCms 2025 0 20) [c3Entry] 0 (by decide)
    (dateUTCms 2025 0 5) (by decide) (by decide) (by decide)
  exact ⟨by decide, by decide, by decide, by decide, h.1, h.2.1 (by decide), by decide⟩

theorem reminderStep_fst_id (now reminderDays : Int) (users : List UserRec)
    (logs : List RenewalLogRec) (e : ExpenseEntry) :
    (reminderStep now reminderDays users logs e).1.id = e.id := by
  simp only [reminderStep]
  split
  · split
    · rfl
    · split <;> rfl
  · rfl

theorem reminderStep_snd_entryId (now reminderDays : Int) (users : List UserRec)
    (logs : List RenewalLogRec) (e : ExpenseEntry) (ev : ReminderEvent)
    (h : (reminderStep now reminderDays users logs e).2 = some ev) :
    ev.entryId = e.id := by
  simp only [reminderStep] at h
  split at h
  · split at h
    · exact absurd h (by simp)
    · split at h
      · injection h with h'
        rw [← h']
      · exact absurd h (by simp)
  · exact absurd h (by simp)

theorem reminderCandidate_flag_set (now reminderDays : Int) (e : ExpenseEntry) :
    reminderCandidate now reminderDays { e with renewalNotificationSent := true } = false := by
  simp [reminderCandidate]

theorem reminderStep_twice_none (now reminderDays : Int) (users : List UserRec)
    (logs : List RenewalLogRec) (e : ExpenseEntry) :
    (reminderStep now reminderDays users logs
      (reminderStep now reminderDays users logs e).1).2 = none := by
  by_cases hc : reminderCandidate now reminderDays e = true
  · by_cases ha : hasRenewalAction logs e.id e.nextRenewalDate = true
    · simp [reminderStep, hc, ha]
    · cases hh : findHandler users e.serviceHandler e.businessUnit with
      | none => simp [reminderStep, hc, ha, hh]
      | some u =>
        simp [reminderStep, hc, ha, hh, reminderCandidate_flag_set]
  · simp [reminderStep, hc]

theorem reminders_second_run_empty (now reminderDays : Int) (users : List UserRec)
    (logs : List RenewalLogRec) (entries : List ExpenseEntry) :
    (runRenewalRemindersOnce now reminderDays users logs
      (runRenewalRemindersOnce now reminderDays users logs entries).1).2 = [] := by
  simp only [runRenewalRemindersOnce]
  rw [List.filterMap_map]
  rw [List.filterMap_eq_nil_iff]
  intro e _
  exact reminderStep_twice_none now reminderDays users logs e

theorem find?_map_id_eq (f : ExpenseEntry → ExpenseEntry)
    (hpres : ∀ a, (f a).id = a.id) :
    ∀ (entries : List ExpenseEntry), (entries.map ExpenseEntry.id).Nodup →
    ∀ e ∈ entries, (entries.map f).find? (fun x => x.id == e.id) = some (f e) := by
  intro entries
  induction entries with
  | nil => simp
  | cons a l ih =>
    intro hnd e he
    have hnda : a.id ∉ l.map ExpenseEntry.id := by
      simp only [List.map_cons, List.nodup_cons] at hnd
      exact hnd.1
    have hndl : (l.map ExpenseEntry.id).Nodup := by
      simp only [List.map_cons, List.nodup_cons] at hnd
      exact hnd.2
    rcases List.mem_cons.mp he with rfl | hel
    · have hp : ((f e).id == e.id) = true := by rw [hpres]; exact beq_self_eq_true _
      rw [List.map_cons]
      exact List.find?_cons_of_pos _ hp
    · have hne : a.id ≠ e.id := by
        intro hcontra
        exact hnda (hcontra ▸ List.mem_map_of_mem ExpenseEntry.id hel)
      have hp : ((f a).id == e.id) = false := by
        rw [hpres]; exact beq_eq_false_iff_ne.mpr hne
      rw [List.map_cons, List.find?_cons_of_neg _ (by simp [hp]), ih hndl e hel]

theorem mem_events_entryId (now reminderDays : Int) (users : List UserRec)
    (logs : List RenewalLogRec) (l : List ExpenseEntry) (ev : ReminderEvent)
    (h : ev ∈ l.filterMap (fun x => (reminderStep now reminderDays users logs x).2)) :
    ev.entryId ∈ l.map ExpenseEntry.id := by
  rcases List.mem_filterMap.mp h with ⟨b, hb, hev⟩
  rw [reminderStep_snd_entryId now reminderDays users logs b ev hev]
  exact List.mem_map_of_mem ExpenseEntry.id hb

theorem filter_events_eq (now reminderDays : Int) (users : List UserRec)
    (logs : List RenewalLogRec) :
    ∀ (entries : List ExpenseEntry), (entries.map ExpenseEntry.id).Nodup →
    ∀ e ∈ entries,
    ((entries.filterMap (fun x => (reminderStep now reminderDays users logs x).2)).filter
        (fun ev => ev.entryId == e.id)) =
      ((reminderStep now reminderDays users logs e).2).toList := by
  intro entries
  induction entries with
  | nil => simp
  | cons a l ih =>
    intro hnd e he
    have hnda : a.id ∉ l.map ExpenseEntry.id := by
      simp only [List.map_cons, List.nodup_cons] at hnd
      exact hnd.1
    have hndl : (l.map ExpenseEntry.id).Nodup := by
      simp only [List.map_cons, List.nodup_cons] at hnd
      exact hnd.2
    rw [List.filterMap_cons]
    rcases List.mem_cons.mp he with rfl | hel
    · have htail : ((l.filterMap (fun x => (reminderStep now reminderDays users logs x).2)).filter
          (fun ev => ev.entryId == e.id)) = [] := by
        rw [List.filter_eq_nil_iff]
        intro ev hev
        have hmem := mem_events_entryId now reminderDays users logs l ev hev
        simp only [beq_iff_eq]
        intro hcontra
        exact hnda (hcontra ▸ hmem)
      cases hstep : (reminderStep now reminderDays users logs e).2 with
      | none => simpa [hstep] using htail
      | some ev =>
        have hid : ev.entryId = e.id :=
          reminderStep_snd_entryId now reminderDays users logs e ev hstep
        simp [hstep, List.filter_cons, hid, htail]
    · have hne : e.id ≠ a.id := by
        intro hcontra
        exact hnda (hcontra ▸ List.mem_map_of_mem ExpenseEntry.id hel)
      cases hstep : (reminderStep now reminderDays users logs a).2 with
      | none => simpa [hstep] using ih hndl e hel
      | some ev =>
        have hid : ev.entryId = a.id :=
          reminderStep_snd_entryId now reminderDays users logs a ev hstep
        have : (ev.entryId == e.id) = false := by
          rw [hid]; exact beq_eq_false_iff_ne.mpr (Ne.symm hne)
        simp [hstep, List.filter_cons, this, ih hndl e hel]

/-- C4: the reminder job is idempotent. For an Active, Accepted entry whose
`nextRenewalDate` falls on the calendar day exactly `reminderDays` ahead,
with the reminder flag unset, no RenewalLog action for the cycle and a
resolvable handler, one run emits exactly one notification for that entry
and saves it with `renewalNotificationSent = true`; an immediate second run
of the job emits no notifications at all; and every entry that has a
RenewalLog action recorded for its current `nextRenewalDate` is skipped
entirely (left unchanged, with no notification). -/
theorem c4_reminder_job_idempotent (now reminderDays : Int) (users : List UserRec)
    (logs : List RenewalLogRec) (entries : List ExpenseEntry)
    (e : ExpenseEntry) (u : UserRec) (D : Int)
    (hNodup : (entries.map ExpenseEntry.id).Nodup)
    (he : e ∈ entries)
    (hstatus : e.status = "Active") (hacc : e.entryStatus = "Accepted")
    (hflag : e.renewalNotificationSent = false)
    (hdate : e.nextRenewalDate = some D)
    (hday : dayIndexOfMs D = dayIndexOfMs (now + reminderDays * msPerDay))
    (hnoact : hasRenewalAction logs e.id e.nextRenewalDate = false)
    (hhandler : findHandler users e.serviceHandler e.businessUnit = some u) :
    ((runRenewalRemindersOnce now reminderDays users logs entries).2.filter
        (fun ev => ev.entryId == e.id)) = [⟨e.id, u.id⟩] ∧
    ((runRenewalRemindersOnce now reminderDays users logs entries).1.find?
        (fun x => x.id == e.id)) = some { e with renewalNotificationSent := true } ∧
    (runRenewalRemindersOnce now reminderDays users logs
        (runRenewalRemindersOnce now reminderDays users logs entries).1).2 = [] ∧
    (∀ e2 ∈ entries, hasRenewalAction logs e2.id e2.nextRenewalDate = true →
      ((runRenewalRemindersOnce now reminderDays users logs entries).2.filter
          (fun ev => ev.entryId == e2.id)) = [] ∧
      ((runRenewalRemindersOnce now reminderDays users logs entries).1.find?
          (fun x => x.id == e2.id)) = some e2) := by
  have hcand : reminderCandidate now reminderDays e = true := by
    simp [reminderCandidate, hstatus, hacc, hflag, hdate, hday]
  have hstep : reminderStep now reminderDays users logs e =
      ({ e with renewalNotificationSent := true }, some ⟨e.id, u.id⟩) := by
    simp [reminderStep, hcand, hnoact, hhandler]
  refine ⟨?_, ?_, reminders_second_run_empty now reminderDays users logs entries, ?_⟩
  · have h := filter_events_eq now reminderDays users logs entries hNodup e he
    simp only [runRenewalRemindersOnce]
    rw [h, hstep]
    rfl
  · have h := find?_map_id_eq (fun x => (reminderStep now reminderDays users logs x).1)
      (fun a => reminderStep_fst_id now reminderDays users logs a) entries hNodup e he
    simp only [runRenewalRemindersOnce]
    rw [h]
    simp [hstep]
  · intro e2 he2 hact2
    have hstep2 : reminderStep now reminderDays users logs e2 = (e2, none) := by
      by_cases hc2 : reminderCandidate now reminderDays e2 = true
      · simp [reminderStep, hc2, hact2]
      · simp [reminderStep, hc2]
    constructor
    · have h := filter_events_eq now reminderDays users logs entries hNodup e2 he2
      simp only [runRenewalRemindersOnce]
      rw [h, hstep2]
      rfl
    · have h := find?_map_id_eq (fun x => (reminderStep now reminderDays users logs x).1)
        (fun a => reminderStep_fst_id now reminderDays users logs a) entries hNodup e2 he2
      simp only [runRenewalRemindersOnce]
      rw [h]
      simp [hstep2]

def c4User : UserRec where
  id := 3
  name := "Raghav Kumar"
  email := "raghav@example.com"
  role := "service_handler"
  businessUnit := "Wytlabs"

def c4Entry : ExpenseEntry where
  id := 7
  cardNumber := "M003"
  cardAssignedTo := "John Doe"
  date := dateUTCms 2024 11 10
  month := "Dec 2024"
  status := "Active"
  particulars := "ChatGPT"
  narration := "ChatGPT"
  currency := "USD"
  billStatus := ""
  amount := 200
  xeRate := 83
  amountInINR := 16600
  typeOfService := "Tool"
  businessUnit := "Wytlabs"
  costCenter := "Ops"
  approvedBy := "Raghav"
  serviceHandler := "Raghav"
  recurring := "Monthly"
  entryStatus := "Accepted"
  duplicateStatus := "Unique"
  nextRenewalDate := some 432000000
  renewalNotificationSent := false
  autoCancellationNotificationSent := false
  isShared := false
  sharedAllocations := []

theorem c4_witness :
    findHandler [c4User] c4Entry.serviceHandler c4Entry.businessUnit = some c4User ∧
    hasRenewalAction [] c4Entry.id c4Entry.nextRenewalDate = false ∧
    ((runRenewalRemindersOnce 0 5 [c4User] [] [c4Entry]).2.filter
        (fun ev => ev.entryId == c4Entry.id)) = [⟨c4Entry.id, c4User.id⟩] ∧
    ((runRenewalRemindersOnce 0 5 [c4User] [] [c4Entry]).1.find?
        (fun x => x.id == c4Entry.id)) =
      some { c4Entry with renewalNotificationSent := true } ∧
    (runRenewalRemindersOnce 0 5 [c4User] []
        (runRenewalRemindersOnce 0 5 [c4User] [] [c4Entry]).1).2 = [] := by
  have h := c4_reminder_job_idempotent 0 5 [c4User] [] [c4Entry] c4Entry c4User
    432000000 (by decide) (List.mem_singleton.mpr rfl) (by decide) (by decide)
    (by decide) (by decide) (by decide) (by decide) (by decide)
  exact ⟨by decide, by decide, h.1, h.2.1, h.2.2.1⟩

theorem markFirstMerged_length (v : ValidRec) :
    ∀ store : List ExpenseEntry, (markFirstMerged v store).length = store.length := by
  intro store
  induction store with
  | nil => rfl
  | cons r rs ih =>
    simp only [markFirstMerged]
    split
    · simp
    · simp [ih]

theorem markFirstMerged_append_no_match (v : ValidRec) :
    ∀ (pre rest : List ExpenseEntry), (∀ x ∈ pre, dupKeyMatches v x = false) →
    markFirstMerged v (pre ++ rest) = pre ++ markFirstMerged v rest := by
  intro pre
  induction pre with
  | nil => intro rest _; rfl
  | cons a l ih =>
    intro rest hpre
    have ha : dupKeyMatches v a = false := hpre a (List.mem_cons_self a l)
    simp only [List.cons_append, markFirstMerged, ha]
    simp only [Bool.false_eq_true, if_false]
    rw [List.append_eq, ih rest (fun x hx => hpre x (List.mem_cons_of_mem a hx))]

theorem dupKeyMatches_mkRecord (v : ValidRec) (n : Nat) :
    dupKeyMatches v (mkRecord v n) = true := by
  simp [dupKeyMatches, mkRecord]

/-- C1: a valid row whose duplicate key (cardNumber, date, particulars,
businessUnit, amount, currency) matches an already-persisted record makes
bulk ingestion mark that record's `duplicateStatus` as `Merged` (writing only
when it is not already `Merged`), report the row as merged, and create no
new record; in particular, ingesting an identical valid row twice creates
one `Unique` record on the first pass and turns it `Merged` on the second
pass with no second record created. -/
theorem c1_duplicate_merge_idempotence (rateFn : String → ℚ) (row : RawRow)
    (store : List ExpenseEntry) (v : ValidRec)
    (hv : validateRow rateFn row = .ok v) :
    (∀ r, store.find? (fun x => dupKeyMatches v x) = some r →
      processRow rateFn row store = (.rowMerged, markFirstMerged v store) ∧
      (markFirstMerged v store).length = store.length ∧
      (∃ pre post, store = pre ++ r :: post ∧
        markFirstMerged v store =
          pre ++ (if r.duplicateStatus == "Merged" then r
                  else { r with duplicateStatus := "Merged" }) :: post) ∧
      (r.duplicateStatus = "Merged" → markFirstMerged v store = store)) ∧
    (store.find? (fun x => dupKeyMatches v x) = none →
      processRow rateFn row store = (.rowCreated, store ++ [mkRecord v store.length]) ∧
      processRow rateFn row (store ++ [mkRecord v store.length]) =
        (.rowMerged,
          store ++ [{ mkRecord v store.length with duplicateStatus := "Merged" }]) ∧
      (store ++ [{ mkRecord v store.length with duplicateStatus := "Merged" }]).length =
        store.length + 1) := by
  constructor
  · intro r hr
    obtain ⟨hpr, pre, post, hdecomp, hpre⟩ := List.find?_eq_some.mp hr
    have hpre' : ∀ x ∈ pre, dupKeyMatches v x = false := by
      intro x hx
      have := hpre x hx
      simpa using this
    have hmark : markFirstMerged v store =
        pre ++ (if r.duplicateStatus == "Merged" then r
                else { r with duplicateStatus := "Merged" }) :: post := by
      rw [hdecomp, markFirstMerged_append_no_match v pre (r :: post) hpre']
      simp only [markFirstMerged, hpr, if_true]
    refine ⟨by simp [processRow, hv, hr], markFirstMerged_length v store,
      ⟨pre, post, hdecomp, hmark⟩, ?_⟩
    intro hM
    rw [hmark, hdecomp]
    simp [hM]
  · intro hn
    have hall : ∀ x ∈ store, dupKeyMatches v x = false := by
      intro x hx
      have := List.find?_eq_none.mp hn x hx
      simpa using this
    have hfind2 : (store ++ [mkRecord v store.length]).find?
        (fun x => dupKeyMatches v x) = some (mkRecord v store.length) := by
      rw [List.find?_append, hn]
      simp [dupKeyMatches_mkRecord]
    have hmark2 : markFirstMerged v (store ++ [mkRecord v store.length]) =
        store ++ [{ mkRecord v store.length with duplicateStatus := "Merged" }] := by
      rw [markFirstMerged_append_no_match v store _ hall]
      simp only [markFirstMerged]
      rw [dupKeyMatches_mkRecord]
      simp [mkRecord]
    refine ⟨by simp [processRow, hv, hn], ?_, by simp⟩
    simp only [processRow, hv, hfind2, hmark2]

def fixedRate83 : String → ℚ := fun _ => 83

def c1Row : RawRow where
  cardNumber := some "M003"
  cardAssignedTo := some "John Doe"
  dateCell := some (.fromMs (dateUTCms 2025 0 5))
  month := some "Jan-2025"
  statusRaw := some "Active"
  particulars := some "ChatGPT"
  narration := none
  currency := some "USD"
  billStatus := none
  amountNum := some 200
  typeRaw := some "Tool"
  businessUnitRaw := some "Wytlabs"
  costCenterRaw := some "Ops"
  approvedByRaw := some "Raghav"
  serviceHandler := some "Raghav"
  recurringRaw := some "Yearly"
  isSharedRaw := none
  sharedAllocRaw := []
  providedRate := some 83
  providedInINR := some 16600

def c1ValidRec : ValidRec where
  cardNumber := "M003"
  cardAssignedTo := "John Doe"
  date := dateUTCms 2025 0 5
  month := "Jan-2025"
  status := "Active"
  particulars := "ChatGPT"
  narration := "ChatGPT"
  currency := "USD"
  billStatus := ""
  amount := 200
  xeRate := 83
  amountInINR := 16600
  typeOfService := "Tool"
  businessUnit := "Wytlabs"
  costCenter := "Ops"
  approvedBy := "Raghav"
  serviceHandler := "Raghav"
  recurring := "Yearly"
  nextRenewalDate := some (addOneYearMs (dateUTCms 2025 0 5))
  isShared := false
  sharedAllocations := []

theorem c1_witness :
    validateRow fixedRate83 c1Row = .ok c1ValidRec ∧
    ([] : List ExpenseEntry).find? (fun x => dupKeyMatches c1ValidRec x) = none ∧
    processRow fixedRate83 c1Row [] = (.rowCreated, [mkRecord c1ValidRec 0]) ∧
    processRow fixedRate83 c1Row [mkRecord c1ValidRec 0] =
      (.rowMerged, [{ mkRecord c1ValidRec 0 with duplicateStatus := "Merged" }]) ∧
    (mkRecord c1ValidRec 0).duplicateStatus = "Unique" ∧
    addOneYearMs (dateUTCms 2025 0 5) = dateUTCms 2026 0 5 := by
  have hv : validateRow fixedRate83 c1Row = .ok c1ValidRec := by with_unfolding_all rfl
  have h := c1_duplicate_merge_idempotence fixedRate83 c1Row [] c1ValidRec hv
  have hn : ([] : List ExpenseEntry).find? (fun x => dupKeyMatches c1ValidRec x) = none := rfl
  have h2 := h.2 hn
  exact ⟨hv, hn, h2.1, h2.2.1, by decide, by decide⟩

/-- The allocated total the shared-allocation block compares against the row
amount: parsed allocations, with the primary business unit appended at
amount 0 when absent. -/
def allocTotalWithPrimary (businessUnit : Option String)
    (sharedAllocRaw : List RawAllocItem) : ℚ :=
  let sharedAllocations := parseSharedAllocations sharedAllocRaw normalizeBU
  let hasPrimary := sharedAllocations.any (fun item => item.businessUnit = businessUnit)
  let withPrimary :=
    if hasPrimary then sharedAllocations
    else sharedAllocations ++ [⟨businessUnit, 0⟩]
  (withPrimary.map (·.amount)).sum

/-- C2: a shared row whose allocated total (after canonicalization and after
appending the primary business unit with amount 0 when absent) exceeds the
row's amount fails validation with the allocation-exceeds-total error, and
the row is rejected whole: the store is left unchanged, so no record is
persisted. -/
theorem c2_allocation_exceeds_total_rejects (rateFn : String → ℚ) (row : RawRow)
    (store : List ExpenseEntry) (a : ℚ)
    (hAmt : row.amountNum = some a)
    (hShared : (parseBoolean row.isSharedRaw ||
      !(parseSharedAllocations row.sharedAllocRaw normalizeBU).isEmpty) = true)
    (hexceeds : allocTotalWithPrimary (rowBusinessUnit row) row.sharedAllocRaw > a) :
    resolveShared (rowBusinessUnit row) row.amountNum row.isSharedRaw row.sharedAllocRaw =
      .error "Shared allocations exceed total amount" ∧
    validateRow rateFn row = .error "Shared allocations exceed total amount" ∧
    processRow rateFn row store =
      (.rowFailed "Shared allocations exceed total amount", store) := by
  simp only [allocTotalWithPrimary] at hexceeds
  have hres : resolveShared (rowBusinessUnit row) row.amountNum row.isSharedRaw
      row.sharedAllocRaw = .error "Shared allocations exceed total amount" := by
    simp only [resolveShared, hAmt, hShared, if_true]
    have : (decide (((if (parseSharedAllocations row.sharedAllocRaw normalizeBU).any
        (fun item => item.businessUnit = rowBusinessUnit row) then
          parseSharedAllocations row.sharedAllocRaw normalizeBU
        else parseSharedAllocations row.sharedAllocRaw normalizeBU ++
          [⟨rowBusinessUnit row, 0⟩]).map (·.amount)).sum > a)) = true :=
      decide_eq_true hexceeds
    simp only [this, if_true]
  have hval : validateRow rateFn row = .error "Shared allocations exceed total amount" := by
    simp only [validateRow, hres]
  exact ⟨hres, hval, by simp [processRow, hval]⟩

def c2Row : RawRow where
  cardNumber := some "M010"
  cardAssignedTo := some "Jane Doe"
  dateCell := some (.fromMs (dateUTCms 2025 2 1))
  month := some "Mar-2025"
  statusRaw := some "Active"
  particulars := some "Figma"
  narration := none
  currency := some "USD"
  billStatus := none
  amountNum := some 300
  typeRaw := some "Tool"
  businessUnitRaw := some "Wytlabs"
  costCenterRaw := some "Ops"
  approvedByRaw := some "Raghav"
  serviceHandler := some "Raghav"
  recurringRaw := some "Monthly"
  isSharedRaw := some "Yes"
  sharedAllocRaw := [⟨some "Wytlabs", some 200⟩, ⟨some "Collabx", some 150⟩]
  providedRate := some 83
  providedInINR := some 24900

theorem c2_witness :
    c2Row.amountNum = some 300 ∧
    (parseBoolean c2Row.isSharedRaw ||
      !(parseSharedAllocations c2Row.sharedAllocRaw normalizeBU).isEmpty) = true ∧
    allocTotalWithPrimary (rowBusinessUnit c2Row) c2Row.sharedAllocRaw > 300 ∧
    validateRow fixedRate83 c2Row = .error "Shared allocations exceed total amount" ∧
    processRow fixedRate83 c2Row [] =
      (.rowFailed "Shared allocations exceed total amount", []) := by
  have h1 : c2Row.amountNum = some 300 := rfl
  have h2 : (parseBoolean c2Row.isSharedRaw ||
      !(parseSharedAllocations c2Row.sharedAllocRaw normalizeBU).isEmpty) = true := by
    decide
  have h3 : allocTotalWithPrimary (rowBusinessUnit c2Row) c2Row.sharedAllocRaw > 300 := by
    with_unfolding_all decide
  have h := c2_allocation_exceeds_total_rejects fixedRate83 c2Row [] 300 h1 h2 h3
  exact ⟨h1, h2, h3, h.2.1, h.2.2⟩

/-- C9 (amended): bulk ingestion derives the effective shared flag as
"raw isShared flag is truthy OR the raw allocation input parses to a
non-empty allocation list". A row whose raw flag is falsy and whose raw
allocation input yields no parsed allocations produces a record with
`isShared = false` and an empty shared-allocation list; but a falsy raw flag
alone does not force an empty list (see the counterexample). -/
theorem c9_not_shared_empty_allocations (rateFn : String → ℚ) (row : RawRow)
    (v : ValidRec)
    (hFlag : parseBoolean row.isSharedRaw = false)
    (hParse : parseSharedAllocations row.sharedAllocRaw normalizeBU = [])
    (hv : validateRow rateFn row = .ok v) :
    v.isShared = false ∧ v.sharedAllocations = [] := by
  have hres : ∀ (bu : Option String) (amt : Option ℚ),
      resolveShared bu amt row.isSharedRaw row.sharedAllocRaw = .ok (false, []) := by
    intro bu amt
    simp [resolveShared, hFlag, hParse]
  simp only [validateRow, hres] at hv
  split at hv
  · exact absurd hv (by simp)
  · split at hv
    · exact absurd hv (by simp)
    · split at hv
      · exact absurd hv (by simp)
      · injection hv with h
        rw [← h]
        exact ⟨rfl, rfl⟩

def c9Row : RawRow where
  cardNumber := some "M011"
  cardAssignedTo := some "Jane Doe"
  dateCell := some (.fromMs (dateUTCms 2025 3 1))
  month := some "Apr-2025"
  statusRaw := some "Active"
  particulars := some "Notion"
  narration := none
  currency := some "USD"
  billStatus := none
  amountNum := some 500
  typeRaw := some "Tool"
  businessUnitRaw := some "Wytlabs"
  costCenterRaw := some "Ops"
  approvedByRaw := some "Raghav"
  serviceHandler := some "Raghav"
  recurringRaw := some "One-time"
  isSharedRaw := some "no"
  sharedAllocRaw := [⟨some "Collabx", some 50⟩]
  providedRate := some 83
  providedInINR := some 41500

def c9ValidRec : ValidRec where
  cardNumber := "M011"
  cardAssignedTo := "Jane Doe"
  date := dateUTCms 2025 3 1
  month := "Apr-2025"
  status := "Active"
  particulars := "Notion"
  narration := "Notion"
  currency := "USD"
  billStatus := ""
  amount := 500
  xeRate := 83
  amountInINR := 41500
  typeOfService := "Tool"
  businessUnit := "Wytlabs"
  costCenter := "Ops"
  approvedBy := "Raghav"
  serviceHandler := "Raghav"
  recurring := "One-time"
  nextRenewalDate := none
  isShared := true
  sharedAllocations := [⟨some "Collabx", 50⟩, ⟨some "Wytlabs", 0⟩]

/-- C9 counterexample: a row whose raw isShared flag is falsy ("no") but
whose raw allocation input parses to a non-empty list is ingested with
`isShared = true` and a non-empty shared-allocation list — the allocations
are not discarded, contradicting "empty regardless of the raw allocation
input". -/
theorem c9_counterexample :
    parseBoolean c9Row.isSharedRaw = false ∧
    validateRow fixedRate83 c9Row = .ok c9ValidRec ∧
    c9ValidRec.isShared = true ∧
    c9ValidRec.sharedAllocations ≠ [] := by
  refine ⟨by decide, by with_unfolding_all rfl, rfl, by decide⟩

def c9PlainRow : RawRow where
  cardNumber := some "M012"
  cardAssignedTo := some "Jane Doe"
  dateCell := some (.fromMs (dateUTCms 2025 3 2))
  month := some "Apr-2025"
  statusRaw := some "Active"
  particulars := some "Linear"
  narration := none
  currency := some "USD"
  billStatus := none
  amountNum := some 100
  typeRaw := some "Tool"
  businessUnitRaw := some "Wytlabs"
  costCenterRaw := some "Ops"
  approvedByRaw := some "Raghav"
  serviceHandler := some "Raghav"
  recurringRaw := some "One-time"
  isSharedRaw := some "no"
  sharedAllocRaw := [⟨some "Collabx", some 0⟩]
  providedRate := some 83
  providedInINR := some 8300

def c9PlainRec : ValidRec where
  cardNumber := "M012"
  cardAssignedTo := "Jane Doe"
  date := dateUTCms 2025 3 2
  month := "Apr-2025"
  status := "Active"
  particulars := "Linear"
  narration := "Linear"
  currency := "USD"
  billStatus := ""
  amount := 100
  xeRate := 83
  amountInINR := 8300
  typeOfService := "Tool"
  businessUnit := "Wytlabs"
  costCenter := "Ops"
  approvedBy := "Raghav"
  serviceHandler := "Raghav"
  recurring := "One-time"
  nextRenewalDate := none
  isShared := false
  sharedAllocations := []

theorem c9_witness :
    parseBoolean c9PlainRow.isSharedRaw = false ∧
    parseSharedAllocations c9PlainRow.sharedAllocRaw normalizeBU = [] ∧
    validateRow fixedRate83 c9PlainRow = .ok c9PlainRec ∧
    c9PlainRec.isShared = false ∧ c9PlainRec.sharedAllocations = [] := by
  have h1 : parseBoolean c9PlainRow.isSharedRaw = false := by decide
  have h2 : parseSharedAllocations c9PlainRow.sharedAllocRaw normalizeBU = [] := by decide
  have hv : validateRow fixedRate83 c9PlainRow = .ok c9PlainRec := by
    with_unfolding_all rfl
  have h := c9_not_shared_empty_allocations fixedRate83 c9PlainRow c9PlainRec h1 h2 hv
  exact ⟨h1, h2, hv, h.1, h.2⟩
